import Mathlib

/-!
Verification development for the graph execution engine of the
DataformerAI/dataformer-app repository (`dfapp.graph.graph.base.Graph` and
its helpers).  The Python source is shallowly embedded: stateful methods
become pure functions on an explicit `Graph` record, dicts become
association lists that keep Python's insertion order, `deque`/`list`
worklists become Lean lists, and the few pieces of the repository whose
files are not part of the source snapshot (`Vertex`/`ContractEdge`
internals, the state manager) are modelled from the specification and
marked as such in their doc comments.
-/

namespace Dfapp

/-- Value of a vertex parameter.  Python parameter values are arbitrary
objects; the claims only need strings, booleans and injected vertex
references (the `params["llm"] = llm_vertex` assignment stores a vertex
object, modelled here by the vertex id). -/
inductive ParamValue where
  | str (s : String)
  | bool (b : Bool)
  | vertexRef (id : String)
deriving DecidableEq, Repr

/-- Behaviour kind of a vertex.  Modelled from the spec: the source
dispatches over a closed set of vertex classes (`ChatVertex`,
`StateVertex`, `LLMVertex`, `ToolkitVertex`, `FileToolVertex`, the
catalog-supplied classes and the generic `Vertex` fallback); the class
files are not in the snapshot, so the classes are modelled as tags. -/
inductive VertexKind where
  | chat
  | state
  | llm
  | toolkit
  | fileTool
  | generic
deriving DecidableEq, Repr

/-- Payload data of one node descriptor.  Modelled from the spec: each
node needs a stable id, a `type` string and a base-type string used for
kind dispatch, plus its template parameters and the declared facets. -/
structure VertexData where
  display_name : String := ""
  is_input : Bool := false
  is_output : Bool := false
  template_params : List (String × ParamValue) := []
deriving DecidableEq, Repr

/-- Directed dependency edge.  Modelled from the spec: "an ordered pair
(source id, target id) plus a contract describing which named output of
source feeds which named input of target. [...] equality is by (source,
target, contract)".  (`dfapp/graph/edge/base.py` is not in the source
snapshot.) -/
structure ContractEdge where
  source_id : String
  target_id : String
  contract : String := ""
deriving DecidableEq, Repr

/-- A vertex of the graph.  Fields follow the spec's data model (§3):
identity, kind tag, raw payload data, raw and resolved parameters, the
`frozen` flag, build state `_built`, `result`, `artifacts`, the `active`
marker manipulated by `set_state`, and the historical average build time
used by the scheduler.  (`dfapp/graph/vertex/base.py` is not in the
source snapshot; the field set is modelled from the spec, all operations
on them below are translated from `graph/graph/base.py`.) -/
structure Vertex where
  id : String
  kind : VertexKind := VertexKind.generic
  data : VertexData := {}
  display_name : String := ""
  raw_params : List (String × ParamValue) := []
  params : List (String × ParamValue) := []
  frozen : Bool := false
  built : Bool := false
  result : Option String := none
  artifacts : List (String × String) := []
  state : String := "ACTIVE"
  avg_build_time : Nat := 0
deriving DecidableEq, Repr

/-- `is_state` facet: in the source it is true exactly for the
state-vertex kind (`SharedState` / `Notify` / `Listen` components).
Modelled from the spec ("boolean facets [...] derived from its type"). -/
def Vertex.is_state (v : Vertex) : Bool := v.kind = VertexKind.state

/-- `is_input` facet, declared by the payload.  Modelled from the spec. -/
def Vertex.is_input (v : Vertex) : Bool := v.data.is_input

/-- `is_output` facet, declared by the payload.  Modelled from the spec. -/
def Vertex.is_output (v : Vertex) : Bool := v.data.is_output

/-- Association list from a key to a list of values, with Python's
`defaultdict(list)` semantics: a missing key reads as `[]`, and a new key
is appended at the end (Python dicts preserve insertion order). -/
abbrev AListStr := List (String × List String)

/-- Read `m[k]` with default `[]` (`defaultdict(list)` lookup). -/
def alGet : AListStr → String → List String
  | [], _ => []
  | (k', vs) :: rest, k => if k' = k then vs else alGet rest k

/-- `m[k].append(v)` on a `defaultdict(list)`: extend the entry in place,
or create it at the end of the insertion order. -/
def alAppend : AListStr → String → String → AListStr
  | [], k, v => [(k, [v])]
  | (k', vs) :: rest, k, v =>
    if k' = k then (k', vs ++ [v]) :: rest else (k', vs) :: alAppend rest k v

/-- `m[k] = vs` on a dict: overwrite in place or append the new key. -/
def alSet : AListStr → String → List String → AListStr
  | [], k, vs => [(k, vs)]
  | (k', vs') :: rest, k, vs =>
    if k' = k then (k', vs) :: rest else (k', vs') :: alSet rest k vs

/-- `m.update(other)` on a dict: each key of `other` overwrites `m`. -/
def alUpdate (m : AListStr) (other : AListStr) : AListStr :=
  other.foldl (fun acc p => alSet acc p.1 p.2) m

/-- Integer-valued association list with `defaultdict(int)` semantics
(the in-degree map: decrements in `layered_topological_sort` can drive a
count below zero, so the values are integers, as in Python). -/
abbrev AListInt := List (String × Int)

/-- Read `m[k]` with default `0`. -/
def idGet : AListInt → String → Int
  | [], _ => 0
  | (k', n) :: rest, k => if k' = k then n else idGet rest k

/-- `m[k] += d` on a `defaultdict(int)`. -/
def idAdd : AListInt → String → Int → AListInt
  | [], k, d => [(k, d)]
  | (k', n) :: rest, k, d =>
    if k' = k then (k', n + d) :: rest else (k', n) :: idAdd rest k d

/-- Nat-valued association list (layer-index maps in `refine_layers`). -/
abbrev AListNat := List (String × Nat)

/-- Optional read of `m[k]` (Python `k in m` / `m[k]`). -/
def nFind : AListNat → String → Option Nat
  | [], _ => none
  | (k', n) :: rest, k => if k' = k then some n else nFind rest k

/-- Read `m[k]` with default `d` (`defaultdict(int)` read). -/
def nGetD (m : AListNat) (k : String) (d : Nat) : Nat := (nFind m k).getD d

/-- `m[k] = n` on a dict keyed by strings. -/
def nSet : AListNat → String → Nat → AListNat
  | [], k, n => [(k, n)]
  | (k', n') :: rest, k, n =>
    if k' = k then (k', n) :: rest else (k', n') :: nSet rest k n

/-- Read a parameter dict (`params.get(key)` / `_raw_params[key]`). -/
def paramGet : List (String × ParamValue) → String → Option ParamValue
  | [], _ => none
  | (k', v) :: rest, k => if k' = k then some v else paramGet rest k

/-- `params[key] = value` on a parameter dict. -/
def paramSet : List (String × ParamValue) → String → ParamValue → List (String × ParamValue)
  | [], k, v => [(k, v)]
  | (k', v') :: rest, k, v =>
    if k' = k then (k', v) :: rest else (k', v') :: paramSet rest k v

/-- Python truthiness of an optional parameter value, as used by
`params.get("stream")`: absent, `False` and `""` are falsy. -/
def paramTruthy : Option ParamValue → Bool
  | none => false
  | some (ParamValue.str s) => s ≠ ""
  | some (ParamValue.bool b) => b
  | some (ParamValue.vertexRef _) => true

/-- `s.add(x)` on a set of ids modelled as a duplicate-free list. -/
def insertId (x : String) (s : List String) : List String :=
  if x ∈ s then s else s ++ [x]

/-- `s.update(xs)` on a set of ids. -/
def unionIds (s : List String) (xs : List String) : List String :=
  xs.foldl (fun acc x => insertId x acc) s

/-- Substring test, Python's `name in param` on strings. -/
def strContains (hay pat : String) : Bool :=
  (List.range (hay.data.length + 1)).any (fun i => pat.data.isPrefixOf (hay.data.drop i))

/-- The `Graph` record: the vertex and edge collections together with the
derived adjacency maps (stored fields, set by `build_graph_maps`, exactly
as the Python object stores `self.predecessor_map` etc.), the facet id
lists filled by `define_vertices_lists`, and the run-scoped scheduling
state (`activated_vertices`, `vertices_to_run`, the run manager's live
predecessor map, and the state store partition of the current run). -/
structure Graph where
  vertices : List Vertex
  edges : List ContractEdge
  predecessor_map : AListStr := []
  successor_map : AListStr := []
  in_degree_map : AListInt := []
  parent_child_map : AListStr := []
  is_input_vertices : List String := []
  is_output_vertices : List String := []
  is_state_vertices : List String := []
  activated_vertices : List String := []
  vertices_to_run : List String := []
  run_predecessors : AListStr := []
  state_store : List (String × List String) := []
deriving DecidableEq, Repr

/-- `Graph.get_vertex`, as an option (the Python method raises
`ValueError` for an unknown id; callers below note where that matters). -/
def getVertexOpt (g : Graph) (vertex_id : String) : Option Vertex :=
  g.vertices.find? (fun v => v.id = vertex_id)

/-- `Vertex.edges`: the edges incident to a vertex.  Modelled from the
spec ("edges and adjacency maps store ids"): the vertex's edge list is
the sublist of the graph's edges touching its id. -/
def vertex_edges (g : Graph) (vertex_id : String) : List ContractEdge :=
  g.edges.filter (fun e => e.source_id = vertex_id ∨ e.target_id = vertex_id)

/-- `Graph.build_adjacency_maps` (base.py 1329-1336): one pass over the
edges appending `edge.source_id` to `predecessor_map[edge.target_id]` and
`edge.target_id` to `successor_map[edge.source_id]`. -/
def build_adjacency_maps (edges : List ContractEdge) : AListStr × AListStr :=
  edges.foldl
    (fun maps e =>
      (alAppend maps.1 e.target_id e.source_id, alAppend maps.2 e.source_id e.target_id))
    ([], [])

/-- `Graph.build_in_degree` (base.py 1323-1327): count incoming edges. -/
def build_in_degree (edges : List ContractEdge) : AListInt :=
  edges.foldl (fun m e => idAdd m e.target_id 1) []

/-- `Graph.build_parent_child_map` (base.py 480-484): map every vertex id
to the ids of its successors (read off the given successor map, as
`get_successors` does). -/
def build_parent_child_map (vertices : List Vertex) (successor_map : AListStr) : AListStr :=
  vertices.foldl (fun m v => alSet m v.id (alGet successor_map v.id)) []

/-- `Graph.build_graph_maps` (base.py 435-448): rebuild the predecessor,
successor, in-degree and parent-child maps from the current edge list. -/
def build_graph_maps (g : Graph) : Graph :=
  let maps := build_adjacency_maps g.edges
  { g with
    predecessor_map := maps.1
    successor_map := maps.2
    in_degree_map := build_in_degree g.edges
    parent_child_map := build_parent_child_map g.vertices maps.2 }

/-- `Graph.define_vertices_lists` (base.py 227-235): append the ids of
the input/output/state vertices to the stored facet lists (the source
appends without clearing, and so does this model). -/
def define_vertices_lists (g : Graph) : Graph :=
  { g with
    is_input_vertices := g.is_input_vertices ++ (g.vertices.filter Vertex.is_input).map Vertex.id
    is_output_vertices := g.is_output_vertices ++ (g.vertices.filter Vertex.is_output).map Vertex.id
    is_state_vertices := g.is_state_vertices ++ (g.vertices.filter Vertex.is_state).map Vertex.id }

/-- Recursion bound for the source's unbounded successor walks: on the
acyclic graphs the engine accepts, a successor chain is never longer than
the edge count, so `edges.length + 1` levels suffice; all general
theorems below hold for every bound. -/
def succFuel (g : Graph) : Nat := g.edges.length + 1

/-- `Graph.get_all_successors` with the default `recursive=True,
flat=True` (base.py 904-939), which is also the body of the local
`get_successors` helper of `sort_up_to_vertex` (base.py 1049-1061): for
each direct successor, first the recursively collected successors, then
the successor itself. -/
def get_all_successors (g : Graph) : Nat → String → List String
  | 0, _ => []
  | Nat.succ fuel, vertex_id =>
    (alGet g.successor_map vertex_id).foldl
      (fun acc s => acc ++ get_all_successors g fuel s ++ [s]) []

/-- `Vertex.set_state`, modelled from the spec's `active` marker: store
the given state string on the vertex. -/
def set_state (v : Vertex) (state : String) : Vertex := { v with state := state }

/-- `Graph.mark_vertex` (base.py 462-465). -/
def mark_vertex (g : Graph) (vertex_id : String) (state : String) : Graph :=
  { g with
    vertices := g.vertices.map (fun v => if v.id = vertex_id then set_state v state else v) }

/-- `Graph.mark_all_vertices` (base.py 457-460). -/
def mark_all_vertices (g : Graph) (state : String) : Graph :=
  { g with vertices := g.vertices.map (fun v => set_state v state) }

/-- `Graph.mark_branch` (base.py 467-478), translated exactly: the
`visited` set receives `vertex_id` immediately before the membership
test, so the test is always true.  The recursive call passes no visited
set, as in the source (`self.mark_branch(child_id, state)`); the fuel
bounds the otherwise unbounded recursion (which is in fact never
entered). -/
def mark_branch (g : Graph) : Nat → String → String → List String → Graph
  | fuel, vertex_id, state, visited =>
    let visited' := insertId vertex_id visited
    if vertex_id ∈ visited' then g
    else
      match fuel with
      | 0 => g
      | Nat.succ fuel =>
        (alGet g.parent_child_map vertex_id).foldl
          (fun g' child_id => mark_branch g' fuel child_id state [])
          (mark_vertex g vertex_id state)

/-- The `stream`/`streaming` flag test of `validate_stream`:
`vertex.params.get("stream") or vertex.params.get("streaming")`. -/
def streamFlag (v : Vertex) : Bool :=
  paramTruthy (paramGet v.params "stream") || paramTruthy (paramGet v.params "streaming")

/-- Loop of `Graph.validate_stream` (base.py 169-186): for each vertex
with the stream flag, walk all its transitive successors and raise
`ValueError` at the first one that also has the flag.  The Python error
message interpolates the two display names; a fixed message stands in. -/
def validate_stream_go (g : Graph) : List Vertex → Except String Unit
  | [] => Except.ok ()
  | v :: rest =>
    if streamFlag v then
      if (get_all_successors g (succFuel g) v.id).any
          (fun sid => ((getVertexOpt g sid).map streamFlag).getD false) then
        Except.error "Components are connected and both have stream or streaming set to True"
      else validate_stream_go g rest
    else validate_stream_go g rest

/-- `Graph.validate_stream` (base.py 169-186). -/
def validate_stream (g : Graph) : Except String Unit :=
  validate_stream_go g g.vertices

/-- The subscription test of `activate_state_vertices` (base.py 125-130):
`isinstance(vertex._raw_params["name"], str) and name in
vertex._raw_params["name"]`.  A missing `"name"` key would raise
`KeyError` in Python; state vertices always carry one, and the model
treats a missing key as a failed test. -/
def subscribed_to (v : Vertex) (name : String) : Bool :=
  match paramGet v.raw_params "name" with
  | some (ParamValue.str s) => strContains s name
  | _ => false

/-- Insertion-order deduplication, modelling the `set()` of edges built
in `activate_state_vertices` (Python set iteration order is unspecified;
the claims below only use membership, which is order-insensitive). -/
def dedupEdges (edges : List ContractEdge) : List ContractEdge :=
  edges.foldl (fun acc e => if e ∈ acc then acc else acc ++ [e]) []

/-- Loop body of `Graph.activate_state_vertices` (base.py 120-145): skip
the caller; for any other `StateVertex` subscribed to `name`, record it,
add its transitive successors to `vertices_to_run`, and merge the
adjacency of it and its successors into the run manager's live
predecessor map.  The accumulator is `(vertices_ids, vertices_to_run,
run_predecessors)`. -/
def activate_step (g : Graph) (name caller : String)
    (st : List String × List String × AListStr) (vertex_id : String) :
    List String × List String × AListStr :=
  if vertex_id = caller then st
  else
    match getVertexOpt g vertex_id with
    | none => st
    | some vertex =>
      if subscribed_to vertex name ∧ vertex_id ≠ caller ∧ vertex.kind = VertexKind.state then
        let successors := get_all_successors g (succFuel g) vertex_id
        let edges := dedupEdges
          ((vertex_id :: successors).foldl (fun acc w => acc ++ vertex_edges g w) [])
        let new_predecessor_map := (build_adjacency_maps edges).1
        (st.1 ++ [vertex_id], unionIds st.2.1 successors, alUpdate st.2.2 new_predecessor_map)
      else st

/-- `Graph.activate_state_vertices` (base.py 112-147), assembled from
`activate_step` folded over the stored state-vertex ids, starting from
the current `vertices_to_run` and live run predecessor map. -/
def activate_state_vertices (g : Graph) (name caller : String) : Graph :=
  let st := g.is_state_vertices.foldl (activate_step g name caller)
    ([], g.vertices_to_run, g.run_predecessors)
  { g with
    activated_vertices := st.1
    vertices_to_run := unionIds st.2.1 st.1
    run_predecessors := st.2.2 }

/-- `GraphStateManager.update_state`, modelled from the spec: a per-run
keyed blackboard; `update` overwrites the entry.  (The state manager's
file is not in the source snapshot; the single run partition is
modelled.) -/
def state_manager_update (store : List (String × List String)) (name record : String) :
    List (String × List String) :=
  match store with
  | [] => [(name, [record])]
  | (k, vs) :: rest =>
    if k = name then (k, [record]) :: rest else (k, vs) :: state_manager_update rest name record

/-- `GraphStateManager.append_state`, modelled from the spec: append the
record under the name. -/
def state_manager_append (store : List (String × List String)) (name record : String) :
    List (String × List String) :=
  match store with
  | [] => [(name, [record])]
  | (k, vs) :: rest =>
    if k = name then (k, vs ++ [record]) :: rest else (k, vs) :: state_manager_append rest name record

/-- `Graph.update_state` (base.py 94-110): with a caller, first activate
the other subscribed state vertices, then write the store.  (Python's
`if caller:` is a truthiness test; the option models it, callers always
being non-empty vertex ids.) -/
def update_state (g : Graph) (name record : String) (caller : Option String) : Graph :=
  let g :=
    match caller with
    | some c => activate_state_vertices g name c
    | none => g
  { g with state_store := state_manager_update g.state_store name record }

/-- `Graph.append_state` (base.py 155-167). -/
def append_state (g : Graph) (name record : String) (caller : Option String) : Graph :=
  let g :=
    match caller with
    | some c => activate_state_vertices g name c
    | none => g
  { g with state_store := state_manager_append g.state_store name record }

/-! ### Graph construction -/

/-- One node descriptor of the payload: `{id, data: {type, node:
{template: {_type, ...}}}}` plus the template parameters the vertex
parses.  Group nodes (with a nested `flow`) are not modelled:
`process_flow` is the identity on payloads without them. -/
structure NodeDesc where
  id : String
  type_name : String
  base_type : String
  data : VertexData := {}
deriving DecidableEq, Repr

/-- One edge descriptor of the payload. -/
structure EdgeDesc where
  source : String
  target : String
  handle : String := ""
deriving DecidableEq, Repr

/-- The component catalog's `VERTEX_TYPE_MAP` (graph/graph/constants.py):
a lookup from type names to vertex classes.  Its entries are produced at
runtime from the external component catalog, so the map is a parameter of
construction; the dispatch rule over it is translated from
`_get_vertex_class`. -/
abbrev VertexTypeMap := String → Option VertexKind

/-- `FILE_TOOLS` (interface/tools/constants.py): only `JsonSpec`. -/
def FILE_TOOLS : List String := ["JsonSpec"]

/-- Characters of an id before the first dash (`node_id.split("-")[0]`),
written as structural recursion so that it reduces definitionally. -/
def charsBeforeDash : List Char → List Char
  | [] => []
  | c :: cs => if c = '-' then [] else c :: charsBeforeDash cs

/-- `node_id.split("-")[0]`: the name part of a node id. -/
def node_name_of (node_id : String) : String :=
  String.mk (charsBeforeDash node_id.data)

/-- `Graph._get_vertex_class` (base.py 986-1007): dispatch over the id's
name prefix, the base type and the type name. -/
def get_vertex_class (vtm : VertexTypeMap) (node_type node_base_type node_id : String) :
    VertexKind :=
  let node_name := node_name_of node_id
  if node_name = "ChatOutput" ∨ node_name = "ChatInput" then VertexKind.chat
  else if node_name = "SharedState" ∨ node_name = "Notify" ∨ node_name = "Listen" then
    VertexKind.state
  else
    match vtm node_base_type with
    | some k => k
    | none =>
      match vtm node_name with
      | some k => k
      | none =>
        if node_type ∈ FILE_TOOLS then VertexKind.fileTool
        else
          match vtm node_type with
          | some k => k
          | none => VertexKind.generic

/-- `Vertex._parse_data`, modelled from the spec: re-derive the display
name and the raw parameters from the payload data.  The `frozen` flag is
runtime state ("a previously built result is never invalidated by graph
updates") and is not re-derived. -/
def parse_data (v : Vertex) : Vertex :=
  { v with display_name := v.data.display_name, raw_params := v.data.template_params }

/-- `Vertex._build_params`, modelled from the spec: resolve the params
from the raw parameters ("resolved parameters (built lazily from raw
parameters ...)"). -/
def build_params (v : Vertex) : Vertex :=
  { v with params := v.raw_params }

/-- `Graph._build_vertices` (base.py 1009-1025): one vertex per node
descriptor, its class chosen by `_get_vertex_class`, its data parsed at
construction. -/
def build_vertices (vtm : VertexTypeMap) (nodes : List NodeDesc) : List Vertex :=
  nodes.map (fun n =>
    parse_data { id := n.id, kind := get_vertex_class vtm n.type_name n.base_type n.id, data := n.data })

/-- `Graph._build_edges` (base.py 965-984): resolve both endpoints
against the vertex ids (failing with a vertex-not-found error), build a
`ContractEdge` per descriptor and collapse duplicates (the source stores
them in a `set`; insertion order stands in for the set's order). -/
def build_edges (ids : List String) (edges : List EdgeDesc) : Except String (List ContractEdge) :=
  edges.foldlM
    (fun acc e =>
      if e.source ∉ ids then Except.error ("Source vertex " ++ e.source ++ " not found")
      else if e.target ∉ ids then Except.error ("Target vertex " ++ e.target ++ " not found")
      else
        let new_edge : ContractEdge := { source_id := e.source, target_id := e.target, contract := e.handle }
        Except.ok (if new_edge ∈ acc then acc else acc ++ [new_edge]))
    []

/-- `Graph._build_vertex_params` (base.py 683-694): run `_build_params`
on every vertex, remember the last `LLMVertex` seen, and if one exists
assign it as the `llm` parameter of every `ToolkitVertex` (the source
assigns unconditionally, overwriting any existing value). -/
def build_vertex_params (g : Graph) : Graph :=
  let vs := g.vertices.map build_params
  let llm_vertex := vs.foldl (fun acc v => if v.kind = VertexKind.llm then some v else acc) none
  match llm_vertex with
  | none => { g with vertices := vs }
  | some l =>
    { g with
      vertices := vs.map (fun v =>
        if v.kind = VertexKind.toolkit then
          { v with params := paramSet v.params "llm" (ParamValue.vertexRef l.id) }
        else v) }

/-- The successful tail of `Graph.__init__`: given the resolved edges,
run `_build_vertex_params`, `build_graph_maps` and
`define_vertices_lists` over the built vertices (base.py 660-672 and
77-80). -/
def graph_assemble (vtm : VertexTypeMap) (nodes : List NodeDesc) (ces : List ContractEdge) :
    Graph :=
  define_vertices_lists (build_graph_maps (build_vertex_params
    { vertices := build_vertices vtm nodes, edges := ces }))

/-- `Graph.__init__` (base.py 30-81) for payloads without group nodes
(`process_flow` is the identity on them): build the vertices, resolve
the edges (the only construction-time failure), then assemble the maps
and facet lists.  `validate_stream` is not called anywhere in
construction. -/
def graphInit (vtm : VertexTypeMap) (nodes : List NodeDesc) (edges : List EdgeDesc) :
    Except String Graph :=
  (build_edges (nodes.map NodeDesc.id) edges).map (graph_assemble vtm nodes)

/-! ### Building a vertex and updating the graph -/

/-- What one concurrent unit of `Graph.build_vertex` produces: the vertex
after the (possible) build, the published result, and whether the build
behaviour was actually invoked (the model's observation of `await
vertex.build(...)`). -/
structure BuildOutcome where
  vertex : Vertex
  result_dict : Option String
  artifacts : List (String × String)
  valid : Bool
  build_invoked : Bool
deriving DecidableEq, Repr

/-- `Graph.build_vertex` (base.py 708-752), the per-vertex part: skip the
build when the vertex is frozen and already built (`if not vertex.frozen
or not vertex._built`), then read the result, raising when it is absent.
The vertex's concrete build behaviour is the external collaborator
`buildFn`; the run-manager interaction after a successful build does not
touch the vertex and is outside the claims handled here. -/
def build_vertex (buildFn : Vertex → Vertex) (v : Vertex) : Except String BuildOutcome :=
  let step := if !v.frozen || !v.built then (buildFn v, true) else (v, false)
  match step.1.result with
  | some r =>
    Except.ok
      { vertex := step.1, result_dict := some r, artifacts := step.1.artifacts,
        valid := true, build_invoked := step.2 }
  | none => Except.error ("No result found for vertex " ++ v.id)

/-- `Graph.update_edges_from_vertex` (base.py 535-543): drop every edge
touching the other vertex's id and append the other vertex's own edges
(`other_edges`, computed in the other graph). -/
def update_edges_from_vertex (g : Graph) (other_id : String) (other_edges : List ContractEdge) :
    Graph :=
  { g with
    edges :=
      g.edges.filter (fun e => ¬(e.source_id = other_id ∨ e.target_id = other_id)) ++ other_edges }

/-- The endpoint ids of every edge of the vertex, in the order
`reset_all_edges_of_vertex` walks them. -/
def reset_touched (g : Graph) (vertex_id : String) : List String :=
  (vertex_edges g vertex_id).foldl (fun acc e => acc ++ [e.source_id, e.target_id]) []

/-- `Graph.reset_all_edges_of_vertex` (base.py 634-641): for both
endpoints of every edge of the vertex, rebuild the params of the
endpoint vertex unless it is frozen. -/
def reset_all_edges_of_vertex (g : Graph) (vertex_id : String) : Graph :=
  { g with
    vertices := g.vertices.map (fun w =>
      if w.id ∈ reset_touched g vertex_id ∧ !w.frozen then build_params w else w) }

/-- Per-vertex part of `Graph.update_vertex_from_another` (base.py
610-632): copy the other vertex's data, re-parse, rebuild the params from
scratch, and only when the vertex is **not** frozen reset `_built`,
`result` and `artifacts`.  The source interleaves the graph's edge-list
update between these field updates; the two commute (the edge update
reads no vertex fields), so the vertex pipeline is one function. -/
def update_vertex_pipeline (other : Vertex) (v : Vertex) : Vertex :=
  let v1 := parse_data { v with data := other.data }
  let v2 := build_params { v1 with params := [] }
  if !v2.frozen then { v2 with built := false, result := none, artifacts := [] } else v2

/-- Apply the update pipeline to the vertex with the given id. -/
def update_vertex_map (vertex_id : String) (other : Vertex) (g : Graph) : Graph :=
  { g with
    vertices := g.vertices.map (fun w =>
      if w.id = vertex_id then update_vertex_pipeline other w else w) }

/-- `Graph.update_vertex_from_another` (base.py 610-632), assembled from
the per-vertex pipeline above, the edge splice, and the neighbour param
rebuild. -/
def update_vertex_from_another (g : Graph) (vertex_id : String) (other : Vertex)
    (other_edges : List ContractEdge) : Graph :=
  reset_all_edges_of_vertex
    (update_edges_from_vertex (update_vertex_map vertex_id other g) other.id other_edges)
    vertex_id

/-- `Graph.remove_vertex` (base.py 674-681): drop the vertex and every
edge touching it.  The maps are *not* rebuilt here.  (The source's
`get_vertex` raises for an unknown id; `update` swallows that error, and
the model skips unknown ids.) -/
def remove_vertex (g : Graph) (vertex_id : String) : Graph :=
  match getVertexOpt g vertex_id with
  | none => g
  | some _ =>
    { g with
      vertices := g.vertices.filter (fun v => v.id ≠ vertex_id)
      edges := g.edges.filter (fun e => e.source_id ≠ vertex_id ∧ e.target_id ≠ vertex_id) }

/-- `Graph._add_vertex` (base.py 643-646): append to the vertex list. -/
def add_vertex_only (g : Graph) (v : Vertex) : Graph :=
  { g with vertices := g.vertices ++ [v] }

/-- `Graph._update_edges` (base.py 653-658): append each of the vertex's
edges whose endpoints exist and which is not present yet. -/
def update_edges (g : Graph) (ves : List ContractEdge) : Graph :=
  ves.foldl
    (fun g e =>
      if e ∉ g.edges ∧ e.source_id ∈ g.vertices.map Vertex.id ∧ e.target_id ∈ g.vertices.map Vertex.id then
        { g with edges := g.edges ++ [e] }
      else g)
    g

/-- `Graph.vertex_edges_are_identical` (base.py 551-558). -/
def vertex_edges_are_identical (g other : Graph) (vertex_id : String) : Bool :=
  let es := vertex_edges g vertex_id
  let os := vertex_edges other vertex_id
  es.length = os.length && es.all (fun e => e ∈ os)

/-- `Graph.vertex_data_is_identical` (base.py 545-549).  Vertex equality
(`Vertex.__eq__`, file not in the snapshot) is modelled from the spec as
agreement of identity and payload data. -/
def vertex_data_is_identical (g other : Graph) (sv ov : Vertex) : Bool :=
  (sv.id = ov.id && sv.data = ov.data) && vertex_edges_are_identical g other sv.id

/-- `Graph.update` (base.py 560-608): remove the vertices absent from
the other graph, add the new ones and their edges, update the changed
common ones, then rebuild the maps (`build_graph_maps`) and re-derive
the facet lists.  The Python set differences iterate in unspecified
order; list order stands in (the claims below are order-insensitive). -/
def Graph.update (g other : Graph) : Graph :=
  let existing := g.vertices.map Vertex.id
  let otherIds := other.vertices.map Vertex.id
  let removed := existing.filter (fun i => i ∉ otherIds)
  let g1 := removed.foldl remove_vertex g
  let newIds := otherIds.filter (fun i => i ∉ existing)
  let g2 := newIds.foldl
    (fun g i => match getVertexOpt other i with | some v => add_vertex_only g v | none => g) g1
  let g3 := newIds.foldl (fun g i => update_edges g (vertex_edges other i)) g2
  let common := existing.filter (fun i => i ∈ otherIds)
  let g4 := common.foldl
    (fun g i =>
      match getVertexOpt g i, getVertexOpt other i with
      | some sv, some ov =>
        if vertex_data_is_identical g other sv ov then g
        else update_vertex_from_another g i ov (vertex_edges other i)
      | _, _ => g)
    g3
  define_vertices_lists (build_graph_maps g4)

/-! ### The wave executor -/

/-- Outcome of one wave task, the model of one `build_vertex` coroutine:
either the list of next runnable vertex ids it returns, or a failure. -/
inductive TaskOutcome where
  | ok (next_runnable : List String)
  | fail (msg : String)
deriving DecidableEq, Repr

/-- What `_execute_tasks` does when a task raises: it cancels
`tasks[i:]`, the *suffix of the dispatch list* starting at the number of
tasks completed so far, and re-raises. -/
structure ExecFailure where
  completed_before : Nat
  failed_index : Nat
  cancelled : List Nat
deriving DecidableEq, Repr

/-- Loop of `Graph._execute_tasks` (base.py 837-859).  `asyncio
.as_completed` yields the tasks in completion order, modelled by
`order` (positions into `tasks`); `i` enumerates the completions.  On
success the task's next-runnable ids are collected; on the first failure
every task in `tasks[i:]` is cancelled (`for t in tasks[i:]: t.cancel()`)
and the exception propagates, so the caller dispatches no further
wave. -/
def execute_tasks_go (tasks : List TaskOutcome) : Nat → List Nat → List String →
    Except ExecFailure (List String)
  | _, [], results => Except.ok results
  | i, t :: rest, results =>
    match tasks.getD t (TaskOutcome.fail "missing task") with
    | TaskOutcome.ok next_runnable => execute_tasks_go tasks (i + 1) rest (results ++ next_runnable)
    | TaskOutcome.fail _ =>
      Except.error
        { completed_before := i, failed_index := t,
          cancelled := (List.range tasks.length).drop i }

/-- `Graph._execute_tasks` (base.py 837-859) for a given completion
order. -/
def execute_tasks (tasks : List TaskOutcome) (order : List Nat) :
    Except ExecFailure (List String) :=
  execute_tasks_go tasks 0 order []

/-! ### Layered topological sort -/

/-- State of the scheduler's worklist loop: the deque, the (mutated)
in-degree map, the visited set and the layer being collected. -/
structure LtsState where
  queue : List String
  ind : AListInt
  visited : List String
  layer : List String
deriving Repr

/-- Inner `for _ in range(layer_size)` loop of `layered_topological_sort`
(base.py 1120-1145): pop from the left, mark visited, append to the
current layer, then for every successor inside the sorted vertex set:
decrement its in-degree; if it reached zero and is unvisited, enqueue it;
if it is still positive, defensively enqueue its predecessors that are
neither queued nor visited. -/
def lts_layer (g : Graph) (vertices_ids : List String) : Nat → LtsState → LtsState
  | 0, st => st
  | Nat.succ count, st =>
    match st.queue with
    | [] => st
    | vertex_id :: queue =>
      let visited := insertId vertex_id st.visited
      let layer := st.layer ++ [vertex_id]
      let qi := (alGet g.successor_map vertex_id).foldl
        (fun (qi : List String × AListInt) neighbor =>
          if neighbor ∉ vertices_ids then qi
          else
            let ind := idAdd qi.2 neighbor (-1)
            if idGet ind neighbor = 0 ∧ neighbor ∉ visited then (qi.1 ++ [neighbor], ind)
            else if idGet ind neighbor > 0 then
              ((alGet g.predecessor_map neighbor).foldl
                (fun q predecessor =>
                  if predecessor ∉ q ∧ predecessor ∉ visited then q ++ [predecessor] else q)
                qi.1, ind)
            else (qi.1, ind))
        (queue, st.ind)
      lts_layer g vertices_ids count { queue := qi.1, ind := qi.2, visited := visited, layer := layer }

/-- Outer `while queue` loop of `layered_topological_sort` (base.py
1120-1147): drain one layer (of the queue's current length) per
iteration, returning the collected layers together with the final loop
state (whose `ind` component is the consumed in-degree map the method
leaves stored on the graph).  The fuel bounds the number of layers; it
is generous for every graph considered below, and exits exactly when
the queue is empty. -/
def lts_outer (g : Graph) (vertices_ids : List String) :
    Nat → LtsState → List (List String) → LtsState × List (List String)
  | 0, st, layers => (st, layers)
  | Nat.succ fuel, st, layers =>
    match st.queue with
    | [] => (st, layers)
    | _ =>
      let st' := lts_layer g vertices_ids st.queue.length { st with layer := [] }
      lts_outer g vertices_ids fuel st' (layers ++ [st'.layer])

/-- `min(indexes, default=0)` over layer indices, as an integer so the
following `- 1` can go negative before `max(..., 0)`. -/
def listMinD (l : List Nat) (d : Int) : Int :=
  match l with
  | [] => d
  | x :: xs => xs.foldl (fun a b => min a (Int.ofNat b)) (Int.ofNat x)

/-- `Graph.refine_layers` (base.py 1151-1187): map every vertex to its
layer; for every key of the successor map compute `max(min(successor
layers) - 1, 0)`; then move each vertex to that layer when it is *later*
than its current one, and drop empty layers. -/
def refine_layers (g : Graph) (initial_layers : List (List String)) : List (List String) :=
  let vertex_to_layer := (initial_layers.enum).foldl
    (fun m li => li.2.foldl (fun m v => nSet m v li.1) m) []
  let new_layer_index_map := g.successor_map.foldl
    (fun m p =>
      let indexes := p.2.filterMap (fun dep => nFind vertex_to_layer dep)
      let new_layer_index := (max (listMinD indexes 0 - 1) 0).toNat
      nSet m p.1 new_layer_index)
    []
  let refined0 : List (List String) := initial_layers.map (fun _ => [])
  let appendAt := fun (ls : List (List String)) (i : Nat) (x : String) =>
    ls.set i ((ls.getD i []) ++ [x])
  let final := (initial_layers.enum).foldl
    (fun (st : List (List String) × AListNat) li =>
      li.2.foldl
        (fun st vertex_id =>
          let new_layer_index := nGetD new_layer_index_map vertex_id 0
          if new_layer_index > li.1 then
            (appendAt st.1 new_layer_index vertex_id, nSet st.2 vertex_id new_layer_index)
          else (appendAt st.1 li.1 vertex_id, st.2))
        st)
    (refined0, vertex_to_layer)
  final.1.filter (fun layer => layer ≠ [])

/-- Layer-count bound for the worklist loop: each layer pops at least
one queue entry, entries are only appended for vertices not yet visited,
and every pop visits its vertex, so the loop always drains; the bound
below is far above the layer count of every graph considered here. -/
def lts_fuel (g : Graph) : Nat :=
  (g.vertices.length + g.edges.length + 1) * (g.vertices.length + 1)

/-- Seed state of `layered_topological_sort` (base.py 1110-1118): the
queue holds the given vertices whose *stored* in-degree is zero
(restricted to inputs when `filter_graphs`), the visited set starts as
`set(queue)`, and the working in-degree map is `self.in_degree_map`
itself — the method decrements the stored map in place. -/
def lts_initial_state (g : Graph) (vertices : List Vertex) (filter_graphs : Bool) : LtsState :=
  let queue := (vertices.filter
    (fun v => idGet g.in_degree_map v.id = 0 ∧ (!filter_graphs || v.is_input))).map Vertex.id
  { queue := queue, ind := g.in_degree_map, visited := queue, layer := [] }

/-- `Graph.layered_topological_sort` (base.py 1103-1149): seed the queue
with the given vertices of stored in-degree zero (restricted to inputs
when `filter_graphs`), run the layering loop and refine the layers. -/
def layered_topological_sort (g : Graph) (vertices : List Vertex) (filter_graphs : Bool) :
    List (List String) :=
  let layers := (lts_outer g (vertices.map Vertex.id) (lts_fuel g)
    (lts_initial_state g vertices filter_graphs) []).2
  refine_layers g layers

/-- The graph state `layered_topological_sort` leaves behind: the loop
body executes `self.in_degree_map[neighbor] -= 1` (base.py 1136) on the
*stored* map and the method never restores it, so after the sort the
graph carries the consumed in-degree map, while the edge list and the
predecessor/successor maps are untouched. -/
def graph_after_layered_sort (g : Graph) (vertices : List Vertex) (filter_graphs : Bool) :
    Graph :=
  { g with
    in_degree_map :=
      (lts_outer g (vertices.map Vertex.id) (lts_fuel g)
        (lts_initial_state g vertices filter_graphs) []).1.ind }

/-- Insert `x` into an already sorted prefix, after every element that
compares `le` to it — the stable placement. -/
def insert_stable (le : String → String → Bool) (x : String) : List String → List String
  | [] => [x]
  | y :: ys => if le y x then y :: insert_stable le x ys else x :: y :: ys

/-- Stable sort by a boolean comparator, as insertion sort.  Python's
`list.sort`/`sorted` are stable; any two stable sorts agree on a total
preorder, and insertion sort reduces definitionally. -/
def sort_stable (le : String → String → Bool) (l : List String) : List String :=
  l.foldl (fun acc x => insert_stable le x acc) []

/-- `Graph.sort_by_avg_build_time` (base.py 1282-1294): stable ascending
sort of each layer by the vertices' average build time. -/
def sort_by_avg_build_time (g : Graph) (vertices_layers : List (List String)) :
    List (List String) :=
  vertices_layers.map (fun layer =>
    if layer.length = 1 then layer
    else sort_stable (fun a b =>
      ((getVertexOpt g a).map Vertex.avg_build_time).getD 0 ≤
        ((getVertexOpt g b).map Vertex.avg_build_time).getD 0) layer)

/-- `Graph._max_dependency_index` (base.py 1223-1230): the largest
same-layer index among a vertex's successors, `-1` when none. -/
def max_dependency_index (g : Graph) (index_map : AListNat) (vertex_id : String) : Int :=
  (alGet g.successor_map vertex_id).foldl
    (fun mx sid =>
      match nFind index_map sid with
      | some i => max mx (Int.ofNat i)
      | none => mx)
    (-1)

/-- `Graph._sort_single_layer_by_dependency` (base.py 1214-1221):
`sorted(..., reverse=True)` — a stable descending sort by the maximal
dependency index. -/
def sort_single_layer_by_dependency (g : Graph) (layer : List String) : List String :=
  let index_map := (layer.enum).foldl (fun m p => nSet m p.2 p.1) []
  sort_stable (fun a b =>
    max_dependency_index g index_map b ≤ max_dependency_index g index_map a) layer

/-- `Graph.sort_layer_by_dependency` (base.py 1204-1212). -/
def sort_layer_by_dependency (g : Graph) (vertices_layers : List (List String)) :
    List (List String) :=
  vertices_layers.map (sort_single_layer_by_dependency g)

/-- The full layer pipeline of `Graph.sort_vertices` without an anchor
(base.py 1232-1264): layered topological sort over all vertices, then the
average-build-time sort, then the intra-layer dependency sort.  The
method's remaining statements (`mark_all_vertices`, run counting,
`vertices_to_run`, the run map) never alter the returned layers:
`mark_all_vertices` only sets each vertex's `state` string, which the
sort never reads. -/
def sort_vertices_layers (g : Graph) : List (List String) :=
  sort_layer_by_dependency g (sort_by_avg_build_time g (layered_topological_sort g g.vertices false))

/-- Index of the wave containing a vertex id. -/
def layer_index_of (layers : List (List String)) (vertex_id : String) : Option Nat :=
  layers.findIdx? (fun layer => vertex_id ∈ layer)

/-! ### Sub-graph extraction (`sort_up_to_vertex`) -/

/-- The ids the anchor's pop pushes (start anchor) or excludes (stop
anchor) in `sort_up_to_vertex` (base.py 1080-1090): for each direct
successor, the successor itself and then all its transitive successors,
in the loop's order. -/
def anchor_frontier (g : Graph) (vertex_id : String) : List String :=
  (alGet g.successor_map vertex_id).foldl
    (fun acc s => acc ++ [s] ++ get_all_successors g (succFuel g) s) []

/-- The DFS loop of `Graph.sort_up_to_vertex` (base.py 1066-1096),
with the Python list-as-stack modelled head-first (`stack.pop()` takes
the most recently appended id).  Per popped id not yet visited or
excluded: mark visited, push all its predecessors; at the anchor push
(start) or exclude (stop) the anchor frontier; at any other id outside
the anchor's direct predecessors push its unvisited successors. -/
def sort_up_go (g : Graph) (vertex_id : String) (is_start : Bool)
    (stop_predecessors : List String) :
    Nat → List String → List String → List String → List String
  | 0, _, visited, _ => visited
  | Nat.succ _, [], visited, _ => visited
  | Nat.succ fuel, current :: stack, visited, excluded =>
    if current ∈ visited ∨ current ∈ excluded then
      sort_up_go g vertex_id is_start stop_predecessors fuel stack visited excluded
    else
      let visited' := visited ++ [current]
      let stack1 := (alGet g.predecessor_map current).foldl (fun st p => p :: st) stack
      if current = vertex_id then
        if is_start then
          sort_up_go g vertex_id is_start stop_predecessors fuel
            ((anchor_frontier g current).foldl (fun st x => x :: st) stack1) visited' excluded
        else
          sort_up_go g vertex_id is_start stop_predecessors fuel
            stack1 visited' (excluded ++ anchor_frontier g current)
      else if current ∉ stop_predecessors then
        sort_up_go g vertex_id is_start stop_predecessors fuel
          ((alGet g.successor_map current).foldl
            (fun st s => if s ∈ visited' then st else s :: st) stack1)
          visited' excluded
      else
        sort_up_go g vertex_id is_start stop_predecessors fuel stack1 visited' excluded

/-- Step bound for the DFS: every step either pops without visiting or
visits a new id; the bound is generous for the graphs considered, and the
safety theorems below hold for every bound. -/
def sort_up_fuel (g : Graph) : Nat :=
  Nat.succ ((g.vertices.length + g.edges.length + 1) * (g.vertices.length + g.edges.length + 1))

/-- `Graph.sort_up_to_vertex` (base.py 1042-1101), returning the visited
ids (the source maps them back to vertices).  `stop_predecessors` is the
anchor's direct predecessor list; the stack starts with the anchor. -/
def sort_up_to_vertex (g : Graph) (vertex_id : String) (is_start : Bool) : List String :=
  sort_up_go g vertex_id is_start (alGet g.predecessor_map vertex_id) (sort_up_fuel g)
    [vertex_id] [] []

/-- Weak connectivity to a root along the stored adjacency maps: exactly
the links `sort_up_to_vertex` can traverse (a predecessor of a reached
id, or a successor of a reached id). -/
inductive WConn (g : Graph) (root : String) : String → Prop
  | refl : WConn g root root
  | predStep {x y : String} : WConn g root y → x ∈ alGet g.predecessor_map y → WConn g root x
  | succStep {x y : String} : WConn g root y → x ∈ alGet g.successor_map y → WConn g root x

/-! ### Concrete payloads and graphs used to settle the claims -/

/-- Empty component catalog: every unlisted type falls back to the
generic vertex kind, as in the source. -/
def vtmEmpty : VertexTypeMap := fun _ => none

/-- Node descriptor with the given id, type and template parameters. -/
def mkNode (id ty : String) (tp : List (String × ParamValue)) : NodeDesc :=
  { id := id, type_name := ty, base_type := "", data := { template_params := tp } }

/-- Payload refuting topological soundness of the final schedule: the
chain `W → X → P → B` plus `A → C` and `B → C`.  While `A` is processed,
`C`'s in-degree is still positive, so the defensive branch enqueues `B`
(whose own in-degree is 1) into wave 1; `P` only reaches in-degree zero
one wave later. -/
def nodesC2 : List NodeDesc :=
  [mkNode "A" "A" [], mkNode "W" "W" [], mkNode "X" "X" [],
   mkNode "P" "P" [], mkNode "B" "B" [], mkNode "C" "C" []]

/-- Edge descriptors for `nodesC2` (order fixes the adjacency order). -/
def edgesC2 : List EdgeDesc :=
  [{ source := "A", target := "C" }, { source := "B", target := "C" },
   { source := "W", target := "X" }, { source := "X", target := "P" },
   { source := "P", target := "B" }]

/-- The resolved edges of `edgesC2`. -/
def cesC2 : List ContractEdge :=
  [{ source_id := "A", target_id := "C" }, { source_id := "B", target_id := "C" },
   { source_id := "W", target_id := "X" }, { source_id := "X", target_id := "P" },
   { source_id := "P", target_id := "B" }]

/-- The graph the engine constructs from `nodesC2`/`edgesC2`. -/
def gC2 : Graph := graph_assemble vtmEmpty nodesC2 cesC2

/-- Payload on which the layered sort duplicates a vertex: `A → C`,
`B → C`, `D → B`.  `B` is enqueued defensively while processing `A`
(in-degree of `C` still positive) and again when `D` zeroes its
in-degree, because the zero-append only checks `visited`, not the
queue. -/
def nodesC4 : List NodeDesc :=
  [mkNode "A" "A" [], mkNode "D" "D" [], mkNode "B" "B" [], mkNode "C" "C" []]

/-- Edge descriptors for `nodesC4`. -/
def edgesC4 : List EdgeDesc :=
  [{ source := "A", target := "C" }, { source := "B", target := "C" },
   { source := "D", target := "B" }]

/-- The resolved edges of `edgesC4`. -/
def cesC4 : List ContractEdge :=
  [{ source_id := "A", target_id := "C" }, { source_id := "B", target_id := "C" },
   { source_id := "D", target_id := "B" }]

/-- The graph the engine constructs from `nodesC4`/`edgesC4`. -/
def gC4 : Graph := graph_assemble vtmEmpty nodesC4 cesC4

/-- Payload for the reactivation claim: a `Listen` state vertex
subscribed to `"topic"`, whose successor `Notify-2` is the caller that
mutates that state during its own build. -/
def nodesC3 : List NodeDesc :=
  [mkNode "Listen-1" "Listen" [("name", ParamValue.str "topic")],
   mkNode "Notify-2" "Notify" [("name", ParamValue.str "topic")]]

/-- Edge descriptors for `nodesC3`. -/
def edgesC3 : List EdgeDesc := [{ source := "Listen-1", target := "Notify-2" }]

/-- The resolved edges of `edgesC3`. -/
def cesC3 : List ContractEdge := [{ source_id := "Listen-1", target_id := "Notify-2" }]

/-- The graph the engine constructs from `nodesC3`/`edgesC3`. -/
def gC3 : Graph := graph_assemble vtmEmpty nodesC3 cesC3

/-- Payload with two adjacent vertices that both declare
`stream=True`. -/
def nodesC5 : List NodeDesc :=
  [mkNode "A" "A" [("stream", ParamValue.bool true)],
   mkNode "B" "B" [("stream", ParamValue.bool true)]]

/-- Edge descriptors for `nodesC5`. -/
def edgesC5 : List EdgeDesc := [{ source := "A", target := "B" }]

/-- The resolved edges of `edgesC5`. -/
def cesC5 : List ContractEdge := [{ source_id := "A", target_id := "B" }]

/-- The graph the engine constructs from `nodesC5`/`edgesC5`: built
without any stream check. -/
def gC5 : Graph := graph_assemble vtmEmpty nodesC5 cesC5

/-- Two-vertex graph `A → B` for the sub-graph extraction claim. -/
def nodesC7 : List NodeDesc := [mkNode "A" "A" [], mkNode "B" "B" []]

/-- Edge descriptors for `nodesC7`. -/
def edgesC7 : List EdgeDesc := [{ source := "A", target := "B" }]

/-- The resolved edges of `edgesC7`. -/
def cesC7 : List ContractEdge := [{ source_id := "A", target_id := "B" }]

/-- The graph the engine constructs from `nodesC7`/`edgesC7`. -/
def gC7 : Graph := graph_assemble vtmEmpty nodesC7 cesC7

/-- Catalog for the llm-injection claim: one model type and one toolkit
type. -/
def vtmC9 : VertexTypeMap := fun t =>
  if t = "OpenAI" then some VertexKind.llm
  else if t = "VectorStoreRouterToolkit" then some VertexKind.toolkit
  else none

/-- Payload with exactly one model vertex `L` and a toolkit vertex `T`
whose template wires `llm` explicitly to the string `"custom"`. -/
def nodesC9 : List NodeDesc :=
  [mkNode "L" "OpenAI" [],
   mkNode "T" "VectorStoreRouterToolkit" [("llm", ParamValue.str "custom")]]

/-- Edge descriptors for `nodesC9`. -/
def edgesC9 : List EdgeDesc := [{ source := "L", target := "T" }]

/-- The resolved edges of `edgesC9`. -/
def cesC9 : List ContractEdge := [{ source_id := "L", target_id := "T" }]

/-- The graph the engine constructs from `nodesC9`/`edgesC9`. -/
def gC9 : Graph := graph_assemble vtmC9 nodesC9 cesC9

/-- Wave of three tasks for the cancellation claim. -/
def tasksC1 : List TaskOutcome :=
  [TaskOutcome.ok [], TaskOutcome.fail "boom", TaskOutcome.ok []]

/-- Completion order refuting the cancellation claim: task 2 finishes
first, then task 1 fails while task 0 is still in flight. -/
def orderC1 : List Nat := [2, 1, 0]

/-- The vertex stored for node `A` of `gC5` (used to instantiate the
stream-validation theorem at a concrete input). -/
def vC5A : Vertex :=
  { id := "A", kind := VertexKind.generic,
    data := { template_params := [("stream", ParamValue.bool true)] },
    raw_params := [("stream", ParamValue.bool true)],
    params := [("stream", ParamValue.bool true)] }

/-- The vertex stored for node `B` of `gC5`. -/
def vC5B : Vertex :=
  { id := "B", kind := VertexKind.generic,
    data := { template_params := [("stream", ParamValue.bool true)] },
    raw_params := [("stream", ParamValue.bool true)],
    params := [("stream", ParamValue.bool true)] }

/-- The vertex/edge collections of `gC9` before the assembly passes
(the argument `_build_vertex_params` receives). -/
def gC9pre : Graph := { vertices := build_vertices vtmC9 nodesC9, edges := cesC9 }

/-- The single model vertex of `gC9pre` after `_build_params`. -/
def vC9L : Vertex := { id := "L", kind := VertexKind.llm }

/-- A frozen, already built vertex with a cached result. -/
def vC6 : Vertex :=
  { id := "F", frozen := true, built := true, result := some "cached",
    artifacts := [("log", "x")] }

/-- A one-vertex graph holding the frozen vertex `vC6`. -/
def gC6 : Graph := build_graph_maps { vertices := [vC6], edges := [] }

/-- An updated payload descriptor for the same id as `vC6`. -/
def vC6other : Vertex := { id := "F", data := { display_name := "new" } }

/-! ## Theorems -/

/-- A freshly inserted id is a member of the set. -/
theorem mem_insertId_self (x : String) (s : List String) : x ∈ insertId x s := by
  unfold insertId
  split
  · assumption
  · exact List.mem_append_right _ (List.mem_singleton.mpr rfl)

/-- C10: `Graph.mark_branch` is a no-op: it inserts `vertex_id` into the
visited set immediately before testing membership in it, so it returns
before marking the vertex or recursing into its children, for every
graph, fuel, vertex, state and initial visited set — the graph (and with
it every vertex's build state) is returned unchanged. -/
theorem mark_branch_is_noop (g : Graph) (fuel : Nat) (vertex_id state : String)
    (visited : List String) : mark_branch g fuel vertex_id state visited = g := by
  unfold mark_branch
  exact if_pos (mem_insertId_self vertex_id visited)

/-- C1: evaluation of `_execute_tasks` at a wave of three tasks where
task 2 completes first and task 1 fails second: the code cancels
`tasks[1:]` (positions 1 and 2 of the dispatch list), so the still
in-flight task 0 is *not* cancelled, refuting "every other still-in-flight
task of wave k is cancelled".  The failure still propagates
(`Except.error`), so no later wave is dispatched. -/
theorem execute_tasks_cancels_wrong_suffix :
    execute_tasks tasksC1 orderC1 =
      Except.error { completed_before := 1, failed_index := 1, cancelled := [1, 2] } ∧
    (0 : Nat) ∉ ([1, 2] : List Nat) ∧ orderC1.take 1 = [2] :=
  ⟨rfl, by decide, rfl⟩

/-- C4: evaluation of the layered topological sort (with its refinement)
on the DAG `A → C`, `B → C`, `D → B`: vertex `B` appears twice in wave 1
of the schedule, refuting "each vertex appears in exactly one wave". -/
theorem layered_sort_duplicates_vertex :
    layered_topological_sort gC4 gC4.vertices false = [["D"], ["A", "B", "B"], ["C"]] ∧
    (layered_topological_sort gC4 gC4.vertices false).flatten.count "B" = 2 :=
  ⟨rfl, rfl⟩

/-- C2: evaluation of the full sorting pipeline on the DAG `W → X → P →
B → C`, `A → C`, `B → C`: the edge `P → B` ends with `P` in wave 2 and
`B` in wave 1, refuting the strict wave ordering of edges. -/
theorem schedule_violates_topology :
    sort_vertices_layers gC2 = [["W"], ["A", "B", "X"], ["C", "P"]] ∧
    ({ source_id := "P", target_id := "B", contract := "" } : ContractEdge) ∈ gC2.edges ∧
    layer_index_of (sort_vertices_layers gC2) "P" = some 2 ∧
    layer_index_of (sort_vertices_layers gC2) "B" = some 1 :=
  ⟨rfl, by decide, rfl, rfl⟩

/-- C3 counterexample: on the graph `Listen-1 → Notify-2` where both are
state vertices subscribed to `"topic"`, the mutation
`update_state("topic", ..., caller="Notify-2")` puts the caller itself
into `vertices_to_run` (it is a transitive successor of `Listen-1`),
refuting "the set of vertices marked for re-scheduling never contains
the caller vertex itself". -/
theorem update_state_reschedules_caller :
    "Notify-2" ∈ (update_state gC3 "topic" "x" (some "Notify-2")).vertices_to_run := by
  decide

/-- C5 counterexample: construction of the payload whose two adjacent
vertices both declare `stream=True` *succeeds* — `Graph.__init__` never
calls `validate_stream`, so no "conflicting stream configuration" error
is raised at construction time. -/
theorem conflicting_stream_payload_constructs :
    graphInit vtmEmpty nodesC5 edgesC5 = Except.ok gC5 ∧
    (getVertexOpt gC5 "A").map streamFlag = some true ∧
    (getVertexOpt gC5 "B").map streamFlag = some true ∧
    ({ source_id := "A", target_id := "B", contract := "" } : ContractEdge) ∈ gC5.edges :=
  ⟨rfl, rfl, rfl, by decide⟩

/-- C7 counterexample: on the graph `A → B`, the start-anchor extraction
`sort_up_to_vertex("B", is_start=True)` returns `A` as well, although
nothing is reachable forward from `B` — the DFS pushes the predecessors
of every visited vertex, so ancestors are included too, refuting
"returns exactly v and the vertices reachable forward from v". -/
theorem start_anchor_includes_ancestor :
    sort_up_to_vertex gC7 "B" true = ["B", "A"] ∧
    alGet gC7.successor_map "B" = [] ∧ ("A" : String) ≠ "B" :=
  ⟨rfl, rfl, by decide⟩

/-- C9 counterexample: with exactly one model vertex `L`, the toolkit
vertex `T` whose template wires `llm` explicitly to `"custom"` ends up
with `params["llm"]` overwritten by the injected `L`, refuting "a
toolkit vertex with an explicitly wired llm parameter keeps it". -/
theorem explicit_llm_param_overwritten :
    (getVertexOpt gC9 "T").map (fun v => paramGet v.params "llm") =
      some (some (ParamValue.vertexRef "L")) ∧
    (getVertexOpt gC9 "T").map (fun v => paramGet v.raw_params "llm") =
      some (some (ParamValue.str "custom")) ∧
    ParamValue.vertexRef "L" ≠ ParamValue.str "custom" :=
  ⟨rfl, rfl, by decide⟩

/-- One activation step never records the caller: the loop skips
`vertex_id == caller` and re-checks `vertex_id != caller` before
appending. -/
theorem activate_step_skips_caller (g : Graph) (name caller : String)
    (acc : List String × List String × AListStr) (vertex_id : String)
    (h : caller ∉ acc.1) : caller ∉ (activate_step g name caller acc vertex_id).1 := by
  unfold activate_step
  split
  · exact h
  · split
    · exact h
    · split
      next hcond =>
        intro hmem
        rcases List.mem_append.mp hmem with h1 | h2
        · exact h h1
        · exact hcond.2.1 (List.mem_singleton.mp h2).symm
      · exact h

/-- Folding the activation step over any id list never records the
caller. -/
theorem activate_fold_skips_caller (g : Graph) (name caller : String) :
    ∀ (l : List String) (acc : List String × List String × AListStr),
      caller ∉ acc.1 → caller ∉ (l.foldl (activate_step g name caller) acc).1 := by
  intro l
  induction l with
  | nil => intro acc h; exact h
  | cons x xs ih =>
    intro acc h
    exact ih _ (activate_step_skips_caller g name caller acc x h)

/-- C3, amended: for every graph, state name, record and caller id, the
list of *activated* (subscribed) vertices computed by
`update_state`/`append_state` never contains the caller itself —
self-activation is excluded by id.  (The caller *can* re-enter
`vertices_to_run`, as a transitive successor of another subscribed state
vertex; see the counterexample.) -/
theorem state_mutation_never_activates_caller (g : Graph) (name record caller : String) :
    caller ∉ (update_state g name record (some caller)).activated_vertices ∧
      caller ∉ (append_state g name record (some caller)).activated_vertices := by
  constructor <;>
    exact activate_fold_skips_caller g name caller g.is_state_vertices
      ([], g.vertices_to_run, g.run_predecessors) (List.not_mem_nil caller)

/-- Setting a parameter makes it readable. -/
theorem paramGet_paramSet_self (p : List (String × ParamValue)) (k : String) (v : ParamValue) :
    paramGet (paramSet p k v) k = some v := by
  induction p with
  | nil => simp [paramSet, paramGet]
  | cons h t ih =>
    obtain ⟨k', v'⟩ := h
    by_cases hk : k' = k
    · simp [paramSet, paramGet, hk]
    · simp [paramSet, paramGet, hk, ih]

/-- C9, amended: whenever the `for` loop of `_build_vertex_params` finds
a model (LLM) vertex — `l` being the last one in vertex order, hence the
unique one when exactly one exists — every toolkit vertex of the
resulting graph carries `l` as its `llm` parameter, unconditionally: the
assignment overwrites any explicitly wired value. -/
theorem llm_injected_into_every_toolkit (g : Graph) (l : Vertex)
    (h : (g.vertices.map build_params).foldl
        (fun acc v => if v.kind = VertexKind.llm then some v else acc) none = some l) :
    ((build_vertex_params g).vertices.all (fun v =>
      if v.kind = VertexKind.toolkit then
        decide (paramGet v.params "llm" = some (ParamValue.vertexRef l.id))
      else true)) = true := by
  unfold build_vertex_params
  simp only [h]
  rw [List.all_eq_true]
  intro v hv
  rcases List.mem_map.mp hv with ⟨w, _, rfl⟩
  by_cases hk : w.kind = VertexKind.toolkit
  · simp [hk, paramGet_paramSet_self]
  · simp [hk]

/-- C9 witness: at the concrete payload `gC9pre` (one model vertex `L`,
one toolkit vertex `T`), the injection theorem applies and every toolkit
vertex carries the injected reference to `L`. -/
theorem llm_injected_witness :
    ((build_vertex_params gC9pre).vertices.all (fun v =>
      if v.kind = VertexKind.toolkit then
        decide (paramGet v.params "llm" = some (ParamValue.vertexRef vC9L.id))
      else true)) = true :=
  llm_injected_into_every_toolkit gC9pre vC9L (by decide)

/-- One streaming vertex with a streaming transitive successor makes the
stream-validation loop fail, wherever the vertex sits in the list. -/
theorem validate_stream_go_errors (g : Graph) (v s : Vertex) (sid : String)
    (hvf : streamFlag v = true)
    (hs : sid ∈ get_all_successors g (succFuel g) v.id)
    (hsv : getVertexOpt g sid = some s) (hsf : streamFlag s = true) :
    ∀ l : List Vertex, v ∈ l → (validate_stream_go g l).isOk = false := by
  have hany : (get_all_successors g (succFuel g) v.id).any
      (fun x => ((getVertexOpt g x).map streamFlag).getD false) = true := by
    refine List.any_eq_true.mpr ⟨sid, hs, ?_⟩
    rw [hsv]
    simpa using hsf
  intro l hl
  induction l with
  | nil => cases hl
  | cons h t ih =>
    rw [validate_stream_go]
    rcases List.mem_cons.mp hl with rfl | hm
    · simp only [hvf, if_true, hany]
      rfl
    · by_cases hf : streamFlag h
      · by_cases ha : (get_all_successors g (succFuel g) h.id).any
            (fun x => ((getVertexOpt g x).map streamFlag).getD false) = true
        · simp only [hf, if_true, ha]
          rfl
        · simp only [hf, if_true, Bool.not_eq_true] at *
          simp only [ha, if_false]
          exact ih hm
      · simp only [Bool.not_eq_true] at hf
        simp only [hf, if_false]
        exact ih hm

/-- C5, amended: `Graph.validate_stream` does fail for every graph in
which a stream-flagged vertex has a stream-flagged transitive successor
— but nothing in construction invokes it, so construction succeeds on
such payloads (see the counterexample) and the conflict is only reported
if a caller runs `validate_stream` itself. -/
theorem validate_stream_flags_connected_streams (g : Graph) (v s : Vertex) (sid : String)
    (hv : v ∈ g.vertices) (hvf : streamFlag v = true)
    (hs : sid ∈ get_all_successors g (succFuel g) v.id)
    (hsv : getVertexOpt g sid = some s) (hsf : streamFlag s = true) :
    (validate_stream g).isOk = false :=
  validate_stream_go_errors g v s sid hvf hs hsv hsf g.vertices hv

/-- C5 witness: the stream-conflict error does fire on the concrete
two-vertex streaming graph `gC5` when `validate_stream` is called. -/
theorem validate_stream_flags_witness : (validate_stream gC5).isOk = false :=
  validate_stream_flags_connected_streams gC5 vC5A vC5B "B" (by decide) (by decide)
    (by decide) (by decide) (by decide)

/-- `find?` by id commutes with mapping an id-preserving function. -/
theorem find_map_id_pred (t : Vertex → Vertex) (ht : ∀ w, (t w).id = w.id) (vid : String) :
    ∀ l : List Vertex,
      (l.map t).find? (fun w => w.id = vid) = (l.find? (fun w => w.id = vid)).map t := by
  intro l
  induction l with
  | nil => rfl
  | cons h tl ih =>
    by_cases hh : h.id = vid
    · rw [List.map_cons, List.find?_cons_of_pos, List.find?_cons_of_pos]
      · rfl
      · simpa using hh
      · simp [ht, hh]
    · rw [List.map_cons, List.find?_cons_of_neg, List.find?_cons_of_neg, ih]
      · simpa using hh
      · simp [ht, hh]

/-- `get_vertex` only looks at the vertex list, so mapping an
id-preserving function over it maps the result. -/
theorem getVertexOpt_of_map (g : Graph) (t : Vertex → Vertex) (ht : ∀ w, (t w).id = w.id)
    (qid : String) :
    getVertexOpt { g with vertices := g.vertices.map t } qid = (getVertexOpt g qid).map t :=
  find_map_id_pred t ht qid g.vertices

/-- The update pipeline keeps the vertex's identity. -/
theorem update_vertex_pipeline_id (other v : Vertex) :
    (update_vertex_pipeline other v).id = v.id := by
  by_cases hf : v.frozen <;> simp [update_vertex_pipeline, parse_data, build_params, hf]

/-- `get_vertex` after the neighbour param rebuild. -/
theorem getVertexOpt_reset_all (g : Graph) (vid qid : String) :
    getVertexOpt (reset_all_edges_of_vertex g vid) qid =
      (getVertexOpt g qid).map (fun w =>
        if w.id ∈ reset_touched g vid ∧ !w.frozen then build_params w else w) :=
  getVertexOpt_of_map g _ (fun w => by split <;> simp [build_params]) qid

/-- `get_vertex` is unchanged by the edge splice. -/
theorem getVertexOpt_update_edges (g : Graph) (oid : String) (oe : List ContractEdge)
    (qid : String) :
    getVertexOpt (update_edges_from_vertex g oid oe) qid = getVertexOpt g qid := rfl

/-- `get_vertex` after `update_vertex_map`. -/
theorem getVertexOpt_update_vertex_map (g : Graph) (vid : String) (other : Vertex)
    (qid : String) :
    getVertexOpt (update_vertex_map vid other g) qid =
      (getVertexOpt g qid).map
        (fun w => if w.id = vid then update_vertex_pipeline other w else w) :=
  getVertexOpt_of_map g _
    (fun w => by
      by_cases hw : w.id = vid <;> simp [hw, update_vertex_pipeline_id]) qid

/-- On a frozen vertex the update pipeline keeps `_built`, `result`,
`artifacts` and the `frozen` flag itself. -/
theorem update_vertex_pipeline_frozen (other v : Vertex) (hf : v.frozen = true) :
    (update_vertex_pipeline other v).built = v.built ∧
      (update_vertex_pipeline other v).result = v.result ∧
      (update_vertex_pipeline other v).artifacts = v.artifacts ∧
      (update_vertex_pipeline other v).frozen = true := by
  simp [update_vertex_pipeline, parse_data, build_params, hf]

/-- C6: a frozen and already built vertex is not rebuilt — `build_vertex`
returns without invoking the build behaviour, with the cached result and
artifacts unchanged — and `update_vertex_from_another` (the graph-update
path) preserves its `_built` flag, `result` and `artifacts`. -/
theorem frozen_vertex_skips_build_and_survives_update
    (buildFn : Vertex → Vertex) (g : Graph) (v other : Vertex)
    (oe : List ContractEdge) (r : String)
    (hv : getVertexOpt g v.id = some v)
    (hf : v.frozen = true) (hb : v.built = true) (hr : v.result = some r) :
    build_vertex buildFn v =
      Except.ok { vertex := v, result_dict := some r, artifacts := v.artifacts,
                  valid := true, build_invoked := false } ∧
    (getVertexOpt (update_vertex_from_another g v.id other oe) v.id).map
        (fun u => (u.built, u.result, u.artifacts)) =
      some (v.built, v.result, v.artifacts) := by
  constructor
  · simp [build_vertex, hf, hb, hr]
  · rw [update_vertex_from_another, getVertexOpt_reset_all, getVertexOpt_update_edges,
      getVertexOpt_update_vertex_map, hv]
    have hfr := update_vertex_pipeline_frozen other v hf
    simp [hfr.1, hfr.2.1, hfr.2.2.1, hfr.2.2.2]

/-- C6 witness: the skip and the preservation at the concrete frozen
vertex `vC6` inside `gC6`, updated from the descriptor `vC6other`. -/
theorem frozen_vertex_witness :
    build_vertex (fun v => v) vC6 =
      Except.ok { vertex := vC6, result_dict := some "cached", artifacts := vC6.artifacts,
                  valid := true, build_invoked := false } ∧
    (getVertexOpt (update_vertex_from_another gC6 vC6.id vC6other []) vC6.id).map
        (fun u => (u.built, u.result, u.artifacts)) =
      some (vC6.built, vC6.result, vC6.artifacts) :=
  frozen_vertex_skips_build_and_survives_update (fun v => v) gC6 vC6 vC6other [] "cached"
    (by decide) (by decide) (by decide) (by decide)

/-- Reading after a `defaultdict(list)` append: the appended value lands
at the end of its key's entry and nowhere else. -/
theorem alGet_alAppend (m : AListStr) (k v k' : String) :
    alGet (alAppend m k v) k' = if k' = k then alGet m k' ++ [v] else alGet m k' := by
  induction m with
  | nil =>
    show alGet [(k, [v])] k' = _
    by_cases h : k' = k
    · rw [if_pos h]
      show (if k = k' then [v] else alGet [] k') = _
      rw [if_pos h.symm]
      rfl
    · rw [if_neg h]
      show (if k = k' then [v] else alGet [] k') = _
      rw [if_neg (fun hh => h hh.symm)]
  | cons a rest ih =>
    obtain ⟨ak, avs⟩ := a
    show alGet (if ak = k then (ak, avs ++ [v]) :: rest else (ak, avs) :: alAppend rest k v) k' = _
    by_cases hak : ak = k
    · rw [if_pos hak]
      show (if ak = k' then avs ++ [v] else alGet rest k') = _
      by_cases h2 : ak = k'
      · rw [if_pos h2, if_pos (h2.symm.trans hak)]
        show _ = (if ak = k' then avs else alGet rest k') ++ [v]
        rw [if_pos h2]
      · rw [if_neg h2]
        by_cases h3 : k' = k
        · exact absurd (hak.trans h3.symm) h2
        · rw [if_neg h3]
          show _ = (if ak = k' then avs else alGet rest k')
          rw [if_neg h2]
    · rw [if_neg hak]
      show (if ak = k' then avs else alGet (alAppend rest k v) k') = _
      by_cases h2 : ak = k'
      · rw [if_pos h2, if_neg (show ¬k' = k from fun hh => hak (h2.trans hh))]
        show _ = (if ak = k' then avs else alGet rest k')
        rw [if_pos h2]
      · rw [if_neg h2, ih]
        by_cases h3 : k' = k
        · rw [if_pos h3, if_pos h3]
          show _ = (if ak = k' then avs else alGet rest k') ++ [v]
          rw [if_neg h2]
        · rw [if_neg h3, if_neg h3]
          show _ = (if ak = k' then avs else alGet rest k')
          rw [if_neg h2]

/-- Membership in a map built by folding `alAppend` over the edges:
exactly the initial entries plus one entry per matching edge. -/
theorem mem_alGet_fold (f h : ContractEdge → String) (edges : List ContractEdge) :
    ∀ (m : AListStr) (x k : String),
      x ∈ alGet (edges.foldl (fun m e => alAppend m (f e) (h e)) m) k ↔
        x ∈ alGet m k ∨ ∃ e, e ∈ edges ∧ h e = x ∧ f e = k := by
  induction edges with
  | nil => simp
  | cons e es ih =>
    intro m x k
    rw [List.foldl_cons, ih, alGet_alAppend]
    by_cases hk : k = f e
    · rw [if_pos hk]
      constructor
      · rintro (hm | ⟨e', he', hh, hf⟩)
        · rcases List.mem_append.mp hm with hm1 | hm2
          · exact Or.inl hm1
          · exact Or.inr ⟨e, List.mem_cons_self e es, (List.mem_singleton.mp hm2).symm, hk.symm⟩
        · exact Or.inr ⟨e', List.mem_cons_of_mem e he', hh, hf⟩
      · rintro (hm | ⟨e', he', hh, hf⟩)
        · exact Or.inl (List.mem_append.mpr (Or.inl hm))
        · rcases List.mem_cons.mp he' with rfl | he'
          · exact Or.inl (List.mem_append.mpr (Or.inr (List.mem_singleton.mpr hh.symm)))
          · exact Or.inr ⟨e', he', hh, hf⟩
    · rw [if_neg hk]
      constructor
      · rintro (hm | ⟨e', he', hh, hf⟩)
        · exact Or.inl hm
        · exact Or.inr ⟨e', List.mem_cons_of_mem e he', hh, hf⟩
      · rintro (hm | ⟨e', he', hh, hf⟩)
        · exact Or.inl hm
        · rcases List.mem_cons.mp he' with rfl | he'
          · exact absurd hf.symm hk
          · exact Or.inr ⟨e', he', hh, hf⟩

/-- The pair fold of `build_adjacency_maps` splits into one fold per
component. -/
theorem build_adjacency_maps_eq (edges : List ContractEdge) :
    build_adjacency_maps edges =
      (edges.foldl (fun m e => alAppend m e.target_id e.source_id) [],
       edges.foldl (fun m e => alAppend m e.source_id e.target_id) []) := by
  suffices h : ∀ pm sm : AListStr,
      edges.foldl
        (fun maps e => (alAppend maps.1 e.target_id e.source_id, alAppend maps.2 e.source_id e.target_id))
        (pm, sm) =
      (edges.foldl (fun m e => alAppend m e.target_id e.source_id) pm,
       edges.foldl (fun m e => alAppend m e.source_id e.target_id) sm) by
    exact h [] []
  induction edges with
  | nil => intro pm sm; rfl
  | cons e es ih => intro pm sm; rw [List.foldl_cons, List.foldl_cons, List.foldl_cons, ih]

/-- Reading after a `defaultdict(int)` bump. -/
theorem idGet_idAdd (m : AListInt) (k : String) (d : Int) (k' : String) :
    idGet (idAdd m k d) k' = if k' = k then idGet m k' + d else idGet m k' := by
  induction m with
  | nil =>
    show idGet [(k, d)] k' = _
    by_cases h : k' = k
    · rw [if_pos h]
      show (if k = k' then d else idGet [] k') = _
      rw [if_pos h.symm]
      show d = 0 + d
      rw [Int.zero_add]
    · rw [if_neg h]
      show (if k = k' then d else idGet [] k') = _
      rw [if_neg (fun hh => h hh.symm)]
  | cons a rest ih =>
    obtain ⟨ak, an⟩ := a
    show idGet (if ak = k then (ak, an + d) :: rest else (ak, an) :: idAdd rest k d) k' = _
    by_cases hak : ak = k
    · rw [if_pos hak]
      show (if ak = k' then an + d else idGet rest k') = _
      by_cases h2 : ak = k'
      · rw [if_pos h2, if_pos (h2.symm.trans hak)]
        show _ = (if ak = k' then an else idGet rest k') + d
        rw [if_pos h2]
      · rw [if_neg h2]
        by_cases h3 : k' = k
        · exact absurd (hak.trans h3.symm) h2
        · rw [if_neg h3]
          show _ = (if ak = k' then an else idGet rest k')
          rw [if_neg h2]
    · rw [if_neg hak]
      show (if ak = k' then an else idGet (idAdd rest k d) k') = _
      by_cases h2 : ak = k'
      · rw [if_pos h2, if_neg (show ¬k' = k from fun hh => hak (h2.trans hh))]
        show _ = (if ak = k' then an else idGet rest k')
        rw [if_pos h2]
      · rw [if_neg h2, ih]
        by_cases h3 : k' = k
        · rw [if_pos h3, if_pos h3]
          show _ = (if ak = k' then an else idGet rest k') + d
          rw [if_neg h2]
        · rw [if_neg h3, if_neg h3]
          show _ = (if ak = k' then an else idGet rest k')
          rw [if_neg h2]

/-- The in-degree fold counts exactly the edges into each target. -/
theorem idGet_fold_count (edges : List ContractEdge) :
    ∀ (m : AListInt) (t : String),
      idGet (edges.foldl (fun m e => idAdd m e.target_id 1) m) t =
        idGet m t + ((edges.filter (fun e => e.target_id = t)).length : Int) := by
  induction edges with
  | nil => simp
  | cons e es ih =>
    intro m t
    rw [List.foldl_cons, ih, idGet_idAdd]
    by_cases h : t = e.target_id
    · rw [if_pos h, List.filter_cons, if_pos (by simpa using h.symm), List.length_cons]
      push_cast
      omega
    · rw [if_neg h, List.filter_cons, if_neg (by simpa using fun hh => h hh.symm)]

/-- C8, amended: after `build_graph_maps` the stored maps faithfully
reflect the edge list — `s ∈ predecessor_map[t]` and
`t ∈ successor_map[s]` iff an edge `s → t` exists, and `in_degree_map[t]`
counts the edges into `t` — and `Graph.update`, the operation through
which vertices and edges are added and removed, ends with
`build_graph_maps`, so its result's maps are exactly the ones rebuilt
from its own edge list.  This holds at the first scheduling decision
after construction or update, but not at every one: the layered sort
leaves the edge list and the predecessor/successor maps untouched (last
conjunct) while consuming the stored in-degree map in place, and nothing
rebuilds it before a later sort (see the counterexample). -/
theorem graph_maps_reflect_edges (g other : Graph) :
    (∀ s t, s ∈ alGet (build_graph_maps g).predecessor_map t ↔
      ∃ e, e ∈ g.edges ∧ e.source_id = s ∧ e.target_id = t) ∧
    (∀ s t, t ∈ alGet (build_graph_maps g).successor_map s ↔
      ∃ e, e ∈ g.edges ∧ e.source_id = s ∧ e.target_id = t) ∧
    (∀ t, idGet (build_graph_maps g).in_degree_map t =
      ((g.edges.filter (fun e => e.target_id = t)).length : Int)) ∧
    (Graph.update g other).predecessor_map =
      (build_adjacency_maps (Graph.update g other).edges).1 ∧
    (Graph.update g other).successor_map =
      (build_adjacency_maps (Graph.update g other).edges).2 ∧
    (Graph.update g other).in_degree_map = build_in_degree (Graph.update g other).edges ∧
    (∀ (vertices : List Vertex) (filter_graphs : Bool),
      (graph_after_layered_sort g vertices filter_graphs).edges = g.edges ∧
      (graph_after_layered_sort g vertices filter_graphs).predecessor_map =
        g.predecessor_map ∧
      (graph_after_layered_sort g vertices filter_graphs).successor_map =
        g.successor_map) := by
  refine ⟨?_, ?_, ?_, rfl, rfl, rfl, fun vertices filter_graphs => ⟨rfl, rfl, rfl⟩⟩
  · intro s t
    show s ∈ alGet (build_adjacency_maps g.edges).1 t ↔ _
    rw [build_adjacency_maps_eq, mem_alGet_fold]
    simp [alGet]
  · intro s t
    show t ∈ alGet (build_adjacency_maps g.edges).2 s ↔ _
    rw [build_adjacency_maps_eq, mem_alGet_fold]
    constructor
    · rintro (hm | ⟨e, he, h1, h2⟩)
      · simp [alGet] at hm
      · exact ⟨e, he, h2, h1⟩
    · rintro ⟨e, he, h1, h2⟩
      exact Or.inr ⟨e, he, h2, h1⟩
  · intro t
    show idGet (build_in_degree g.edges) t = _
    rw [build_in_degree, idGet_fold_count]
    simp [idGet]

/-- Membership in a two-function append fold (the shape of
`get_all_successors` and `anchor_frontier`). -/
theorem mem_foldl_append2 (f1 f2 : String → List String) (l : List String) :
    ∀ (init : List String) (x : String),
      x ∈ l.foldl (fun acc s => acc ++ f1 s ++ f2 s) init ↔
        x ∈ init ∨ ∃ s, s ∈ l ∧ (x ∈ f1 s ∨ x ∈ f2 s) := by
  induction l with
  | nil => simp
  | cons a as ih =>
    intro init x
    rw [List.foldl_cons, ih]
    constructor
    · rintro (hm | ⟨s, hs, hx⟩)
      · rcases List.mem_append.mp hm with h1 | h2
        · rcases List.mem_append.mp h1 with h3 | h4
          · exact Or.inl h3
          · exact Or.inr ⟨a, List.mem_cons_self a as, Or.inl h4⟩
        · exact Or.inr ⟨a, List.mem_cons_self a as, Or.inr h2⟩
      · exact Or.inr ⟨s, List.mem_cons_of_mem a hs, hx⟩
    · rintro (hm | ⟨s, hs, hx⟩)
      · exact Or.inl (List.mem_append.mpr (Or.inl (List.mem_append.mpr (Or.inl hm))))
      · rcases List.mem_cons.mp hs with rfl | hs
        · rcases hx with h1 | h2
          · exact Or.inl (List.mem_append.mpr (Or.inl (List.mem_append.mpr (Or.inr h1))))
          · exact Or.inl (List.mem_append.mpr (Or.inr h2))
        · exact Or.inr ⟨s, hs, hx⟩

/-- Membership after pushing a whole list onto a stack. -/
theorem mem_foldl_cons (l : List String) :
    ∀ (init : List String) (x : String),
      x ∈ l.foldl (fun st p => p :: st) init ↔ x ∈ init ∨ x ∈ l := by
  induction l with
  | nil => simp
  | cons a as ih =>
    intro init x
    rw [List.foldl_cons, ih]
    constructor
    · rintro (hm | hx)
      · rcases List.mem_cons.mp hm with rfl | hm
        · exact Or.inr (List.mem_cons_self x as)
        · exact Or.inl hm
      · exact Or.inr (List.mem_cons_of_mem a hx)
    · rintro (hm | hx)
      · exact Or.inl (List.mem_cons_of_mem a hm)
      · rcases List.mem_cons.mp hx with rfl | hx
        · exact Or.inl (List.mem_cons_self x init)
        · exact Or.inr hx

/-- Membership after conditionally pushing a list onto a stack (only the
unvisited successors are pushed). -/
theorem mem_foldl_cons_if (visited : List String) (l : List String) :
    ∀ (init : List String) (x : String),
      x ∈ l.foldl (fun st s => if s ∈ visited then st else s :: st) init →
        x ∈ init ∨ x ∈ l := by
  induction l with
  | nil => intro init x hx; exact Or.inl hx
  | cons a as ih =>
    intro init x hx
    rw [List.foldl_cons] at hx
    rcases ih _ x hx with h1 | h2
    · by_cases ha : a ∈ visited
      · rw [if_pos ha] at h1
        exact Or.inl h1
      · rw [if_neg ha] at h1
        rcases List.mem_cons.mp h1 with rfl | h1
        · exact Or.inr (List.mem_cons_self x as)
        · exact Or.inl h1
    · exact Or.inr (List.mem_cons_of_mem a h2)

/-- Everything `get_all_successors` returns is weakly connected to any
root its start vertex is connected to (successor steps only). -/
theorem wconn_of_get_all_successors (g : Graph) (root : String) :
    ∀ (fuel : Nat) (s x : String),
      WConn g root s → x ∈ get_all_successors g fuel s → WConn g root x := by
  intro fuel
  induction fuel with
  | zero => intro s x _ hx; cases hx
  | succ fuel ih =>
    intro s x hs hx
    rw [get_all_successors] at hx
    rcases (mem_foldl_append2 (fun s' => get_all_successors g fuel s') (fun s' => [s'])
        (alGet g.successor_map s) [] x).mp hx with h0 | ⟨s', hs', hx'⟩
    · cases h0
    · have hs'conn : WConn g root s' := WConn.succStep hs hs'
      rcases hx' with h1 | h2
      · exact ih s' x hs'conn h1
      · rw [List.mem_singleton.mp h2]
        exact hs'conn

/-- Everything in the anchor frontier is weakly connected to any root the
anchor is connected to. -/
theorem wconn_of_anchor_frontier (g : Graph) (root c x : String)
    (hc : WConn g root c) (hx : x ∈ anchor_frontier g c) : WConn g root x := by
  rw [anchor_frontier] at hx
  rcases (mem_foldl_append2 (fun s => [s]) (fun s => get_all_successors g (succFuel g) s)
      (alGet g.successor_map c) [] x).mp hx with h0 | ⟨s, hs, hx'⟩
  · cases h0
  · have hsconn : WConn g root s := WConn.succStep hc hs
    rcases hx' with h1 | h2
    · rw [List.mem_singleton.mp h1]
      exact hsconn
    · exact wconn_of_get_all_successors g root (succFuel g) s x hsconn h2

/-- The DFS result only grows the visited set. -/
theorem sort_up_go_mono (g : Graph) (vid : String) (is_start : Bool) (sp : List String) :
    ∀ (fuel : Nat) (stack visited excluded : List String) (x : String),
      x ∈ visited → x ∈ sort_up_go g vid is_start sp fuel stack visited excluded := by
  intro fuel
  induction fuel with
  | zero => intro stack visited excluded x hx; exact hx
  | succ fuel ih =>
    intro stack visited excluded x hx
    cases stack with
    | nil => exact hx
    | cons current rest =>
      rw [sort_up_go]
      by_cases hmem : current ∈ visited ∨ current ∈ excluded
      · rw [if_pos hmem]
        exact ih rest visited excluded x hx
      · rw [if_neg hmem]
        have hx' : x ∈ visited ++ [current] := List.mem_append.mpr (Or.inl hx)
        by_cases hanchor : current = vid
        · rw [if_pos hanchor]
          by_cases hst : is_start = true
          · rw [if_pos hst]
            exact ih _ _ excluded x hx'
          · rw [if_neg hst]
            exact ih _ _ _ x hx'
        · rw [if_neg hanchor]
          by_cases hsp : current ∉ sp
          · rw [if_pos hsp]
            exact ih _ _ excluded x hx'
          · rw [if_neg hsp]
            exact ih _ _ excluded x hx'

/-- Safety invariant of the DFS: starting from a stack and visited set of
weakly connected ids, everything it ever returns is weakly connected to
the anchor. -/
theorem sort_up_go_wconn (g : Graph) (vid : String) (is_start : Bool) (sp : List String) :
    ∀ (fuel : Nat) (stack visited excluded : List String),
      (∀ x ∈ stack, WConn g vid x) → (∀ x ∈ visited, WConn g vid x) →
      ∀ x ∈ sort_up_go g vid is_start sp fuel stack visited excluded, WConn g vid x := by
  intro fuel
  induction fuel with
  | zero => intro stack visited excluded _ hv x hx; exact hv x hx
  | succ fuel ih =>
    intro stack visited excluded hs hv x hx
    cases stack with
    | nil => exact hv x hx
    | cons current rest =>
      rw [sort_up_go] at hx
      have hrest : ∀ y ∈ rest, WConn g vid y :=
        fun y hy => hs y (List.mem_cons_of_mem current hy)
      by_cases hmem : current ∈ visited ∨ current ∈ excluded
      · rw [if_pos hmem] at hx
        exact ih rest visited excluded hrest hv x hx
      · rw [if_neg hmem] at hx
        have hcur : WConn g vid current := hs current (List.mem_cons_self current rest)
        have hv' : ∀ y ∈ visited ++ [current], WConn g vid y := by
          intro y hy
          rcases List.mem_append.mp hy with h1 | h2
          · exact hv y h1
          · rw [List.mem_singleton.mp h2]
            exact hcur
        have hstack1 : ∀ y ∈ (alGet g.predecessor_map current).foldl (fun st p => p :: st) rest,
            WConn g vid y := by
          intro y hy
          rcases (mem_foldl_cons (alGet g.predecessor_map current) rest y).mp hy with h1 | h2
          · exact hrest y h1
          · exact WConn.predStep hcur h2
        by_cases hanchor : current = vid
        · rw [if_pos hanchor] at hx
          by_cases hst : is_start = true
          · rw [if_pos hst] at hx
            refine ih _ _ excluded ?_ hv' x hx
            intro y hy
            rcases (mem_foldl_cons (anchor_frontier g current) _ y).mp hy with h1 | h2
            · exact hstack1 y h1
            · exact wconn_of_anchor_frontier g vid current y hcur h2
          · rw [if_neg hst] at hx
            exact ih _ _ _ hstack1 hv' x hx
        · rw [if_neg hanchor] at hx
          by_cases hsp : current ∉ sp
          · rw [if_pos hsp] at hx
            refine ih _ _ excluded ?_ hv' x hx
            intro y hy
            rcases mem_foldl_cons_if (visited ++ [current]) (alGet g.successor_map current) _ y hy
              with h1 | h2
            · exact hstack1 y h1
            · exact WConn.succStep hcur h2
          · rw [if_neg hsp] at hx
            exact ih _ _ excluded hstack1 hv' x hx

/-- Exclusion invariant of the stop-mode DFS: once the anchor frontier
sits inside the excluded set, no id of the frontier other than the
anchor itself is ever visited. -/
theorem sort_up_go_excluded (g : Graph) (vid : String) (sp : List String) (D : List String) :
    ∀ (fuel : Nat) (stack visited excluded : List String),
      (∀ x ∈ visited, x ∈ D → x = vid) → (∀ x ∈ D, x ∈ excluded) →
      ∀ x ∈ sort_up_go g vid false sp fuel stack visited excluded, x ∈ D → x = vid := by
  intro fuel
  induction fuel with
  | zero => intro stack visited excluded hv _ x hx hD; exact hv x hx hD
  | succ fuel ih =>
    intro stack visited excluded hv hexc x hx hD
    cases stack with
    | nil => exact hv x hx hD
    | cons current rest =>
      rw [sort_up_go] at hx
      by_cases hmem : current ∈ visited ∨ current ∈ excluded
      · rw [if_pos hmem] at hx
        exact ih rest visited excluded hv hexc x hx hD
      · rw [if_neg hmem] at hx
        have hv' : ∀ y ∈ visited ++ [current], y ∈ D → y = vid := by
          intro y hy hyD
          rcases List.mem_append.mp hy with h1 | h2
          · exact hv y h1 hyD
          · rw [List.mem_singleton.mp h2] at hyD ⊢
            exact absurd (Or.inr (hexc current hyD)) hmem
        by_cases hanchor : current = vid
        · rw [if_pos hanchor] at hx
          rw [if_neg (by simp : ¬(false = true))] at hx
          refine ih _ _ _ hv' ?_ x hx hD
          intro y hy
          exact List.mem_append.mpr (Or.inl (hexc y hy))
        · rw [if_neg hanchor] at hx
          by_cases hsp : current ∉ sp
          · rw [if_pos hsp] at hx
            exact ih _ _ excluded hv' hexc x hx hD
          · rw [if_neg hsp] at hx
            exact ih _ _ excluded hv' hexc x hx hD

/-- C7, amended: for every graph and anchor, the extraction always
contains the anchor itself and only ids weakly connected to it along the
adjacency maps; and with a stop anchor nothing from the anchor's forward
frontier (its successors and their transitive successors) other than
possibly the anchor itself is returned.  The extraction is *not* limited
to ancestors (stop) or forward-reachable vertices (start): the DFS also
pushes the predecessors of every visited vertex and the successors of
visited non-direct-predecessors, so e.g. a start-anchor extraction also
returns the anchor's ancestors (see the counterexample). -/
theorem sort_up_to_vertex_span (g : Graph) (vid : String) (is_start : Bool) :
    vid ∈ sort_up_to_vertex g vid is_start ∧
    (∀ x ∈ sort_up_to_vertex g vid is_start, WConn g vid x) ∧
    (∀ x ∈ sort_up_to_vertex g vid false, x ∈ anchor_frontier g vid → x = vid) := by
  refine ⟨?_, ?_, ?_⟩
  · unfold sort_up_to_vertex sort_up_fuel
    rw [sort_up_go]
    rw [if_neg (by simp)]
    rw [if_pos rfl]
    by_cases hst : is_start = true
    · rw [if_pos hst]
      exact sort_up_go_mono g vid is_start _ _ _ _ _ vid (by simp)
    · rw [if_neg hst]
      exact sort_up_go_mono g vid is_start _ _ _ _ _ vid (by simp)
  · intro x hx
    refine sort_up_go_wconn g vid is_start (alGet g.predecessor_map vid) (sort_up_fuel g)
      [vid] [] [] ?_ ?_ x hx
    · intro y hy
      rw [List.mem_singleton.mp hy]
      exact WConn.refl
    · intro y hy
      cases hy
  · intro x hx hD
    unfold sort_up_to_vertex sort_up_fuel at hx
    rw [sort_up_go] at hx
    rw [if_neg (by simp)] at hx
    rw [if_pos rfl] at hx
    rw [if_neg (by simp : ¬(false = true))] at hx
    refine sort_up_go_excluded g vid _ (anchor_frontier g vid) _ _ _ _ ?_ ?_ x hx hD
    · intro y hy hyD
      rcases List.mem_append.mp hy with h1 | h2
      · cases h1
      · exact List.mem_singleton.mp h2
    · intro y hy
      exact List.mem_append.mpr (Or.inr hy)

/-- C8 counterexample: on the two-vertex graph `A → B`, one scheduling
decision consumes the stored in-degree map in place.  Afterwards no
vertex or edge was added or removed — the edge list and the
predecessor/successor maps are unchanged — yet `in_degree_map["B"]`
reads `0` while one edge still targets `B`, so the map no longer equals
the edge count at the next scheduling decision.  That next decision is a
real path (`arun` with a second input batch calls `process →
sort_vertices` again on the same instance) and, seeded from the consumed
map, it schedules `A` and `B` into one wave despite the edge `A → B`. -/
theorem consumed_in_degree_at_second_sort :
    (graph_after_layered_sort gC7 gC7.vertices false).edges = gC7.edges ∧
    (graph_after_layered_sort gC7 gC7.vertices false).predecessor_map = gC7.predecessor_map ∧
    (graph_after_layered_sort gC7 gC7.vertices false).successor_map = gC7.successor_map ∧
    idGet (graph_after_layered_sort gC7 gC7.vertices false).in_degree_map "B" = 0 ∧
    ((gC7.edges.filter (fun e => e.target_id = "B")).length : Int) = 1 ∧
    layered_topological_sort (graph_after_layered_sort gC7 gC7.vertices false)
      (graph_after_layered_sort gC7 gC7.vertices false).vertices false = [["A", "B"]] :=
  ⟨rfl, rfl, rfl, rfl, rfl, rfl⟩

end Dfapp
